import Mathlib

/-!
Verification of the ChatLlama client engine (src/script.js).

The client code is shallowly embedded over `List Char` (JS strings).
Pure helpers of the source (trim, the markdown formatting pipeline,
the SSE frame splitter) become Lean functions; the stateful parts of
`sendMessage` (the streaming read loop, the chat sidebar registry,
the generation flag) become explicit state passing over small state
structures.  `JSON.parse` is an external platform capability and is
abstracted as a parameter classifying each payload into the branch
the source takes (`token` truthy / `memories_added` defined / neither
/ parse failure).
-/

namespace ChatLlama

/-- Backtick character (code 96). -/
def backtickChar : Char := Char.ofNat 96

/-- Double-quote character (code 34). -/
def quoteChar : Char := Char.ofNat 34

/-- Apostrophe character (code 39). -/
def apostropheChar : Char := Char.ofNat 39

/-- JS `String.prototype.trim`: whitespace stripped from both ends. -/
def jsTrim (s : List Char) : List Char :=
  ((s.dropWhile Char.isWhitespace).reverse.dropWhile Char.isWhitespace).reverse

/-- JS `s.replace(/c/g, rep)` for a single-character pattern `c`. -/
def replaceChar (c : Char) (rep : List Char) : List Char → List Char
  | [] => []
  | a :: rest => (if a = c then rep else [a]) ++ replaceChar c rep rest

/-- JS `s.replace(pat, rep)` with a (non-empty) string pattern:
replaces the first occurrence only. -/
def replaceFirst (pat rep : List Char) : List Char → List Char
  | [] => []
  | a :: rest =>
    if pat.isPrefixOf (a :: rest) then rep ++ (a :: rest).drop pat.length
    else a :: replaceFirst pat rep rest

/-- First index at which `pat` occurs as a sublist (JS `indexOf`). -/
def findSubIdx (pat : List Char) : List Char → Option Nat
  | [] => if pat.isEmpty then some 0 else none
  | a :: rest =>
    if pat.isPrefixOf (a :: rest) then some 0
    else (findSubIdx pat rest).map (fun i => i + 1)

/-- Word character class `\w` of the code-block regex: `[A-Za-z0-9_]`. -/
def isWordChar (c : Char) : Bool := c.isAlphanum || c = '_'

/-- Split a string at every newline (JS `split('\n')`). -/
def splitNl : List Char → List (List Char)
  | [] => [[]]
  | '\n' :: rest => [] :: splitNl rest
  | c :: rest =>
    match splitNl rest with
    | [] => [[c]]
    | l :: ls => (c :: l) :: ls

/-- Re-join lines with newlines (inverse of `splitNl`). -/
def joinNl : List (List Char) → List Char
  | [] => []
  | [l] => l
  | l :: ls => l ++ '\n' :: joinNl ls

/-- Apply a per-line transformation, as a `/^.../gm` regex replace does. -/
def mapLines (f : List Char → List Char) (s : List Char) : List Char :=
  joinNl ((splitNl s).map f)

/-! HTML-escape step of `formatMessage` (script.js lines 496-501): five
sequential global single-character replaces, `&` first. -/

def ampEnt : List Char := ("&amp;").data
def ltEnt : List Char := ("&lt;").data
def gtEnt : List Char := ("&gt;").data
def quotEnt : List Char := ("&quot;").data
def aposEnt : List Char := ("&#x27;").data

/-- The escape chain of `formatMessage`:
`.replace(/&/g,'&amp;').replace(/</g,'&lt;').replace(/>/g,'&gt;')
.replace(/"/g,'&quot;').replace(/'/g,'&#x27;')`. -/
def escapeHtml (s : List Char) : List Char :=
  replaceChar apostropheChar aposEnt
    (replaceChar quoteChar quotEnt
      (replaceChar '>' gtEnt
        (replaceChar '<' ltEnt
          (replaceChar '&' ampEnt s))))

/-! Code-block pass: `/```(\w+)?\s*\n?([\s\S]*?)```/g` with a template
whose literal text (including the template literal's own newlines and
indentation) is reproduced below. -/

def tripleTick : List Char := Char.ofNat 96 :: Char.ofNat 96 :: [Char.ofNat 96]

def codeOpenA : List Char := ("<div class=\"code-block").data
def codeCompact : List Char := (" compact").data
def codeOpenB : List Char := ("\">\n                    <pre><code>").data
def codeCloseT : List Char := ("</code></pre>\n                </div>").data

/-- Replacement function of the code-block regex: trims the captured
code, classifies it compact when it has at most 3 lines and fewer than
100 characters, and interpolates it into the div/pre/code template. -/
def codeBlockTemplate (code : List Char) : List Char :=
  let trimmedCode := jsTrim code
  let lineCount := (trimmedCode.filter (fun c => c == '\n')).length + 1
  let compactClass :=
    if lineCount ≤ 3 ∧ trimmedCode.length < 100 then codeCompact else []
  codeOpenA ++ compactClass ++ codeOpenB ++ trimmedCode ++ codeCloseT

/-- Global scan for the code-block regex.  At an opening ` ``` ` the
engine consumes an optional `\w+` language, then `\s*\n?` (equivalent
to skipping all whitespace, since `\s*` is greedy), then lazily
captures up to the next ` ``` `; with no closing fence the match fails
and the scan advances one character. -/
def codeBlockGo (fuel : Nat) (s : List Char) : List Char :=
  match fuel, s with
  | 0, s => s
  | _ + 1, [] => []
  | fuel + 1, c :: rest =>
    if tripleTick.isPrefixOf (c :: rest) then
      let afterOpen := (c :: rest).drop 3
      let lang := afterOpen.takeWhile isWordChar
      let afterWs := (afterOpen.drop lang.length).dropWhile Char.isWhitespace
      match findSubIdx tripleTick afterWs with
      | some j => codeBlockTemplate (afterWs.take j) ++ codeBlockGo fuel (afterWs.drop (j + 3))
      | none => c :: codeBlockGo fuel rest
    else c :: codeBlockGo fuel rest

def codeBlockStep (s : List Char) : List Char := codeBlockGo s.length s

/-! Inline code pass: `` /`([^`\n]+)`/g `` → `<code class="inline-code">$1</code>`. -/

def inlineOpenT : List Char := ("<code class=\"inline-code\">").data
def inlineCloseT : List Char := ("</code>").data

def inlineCodeGo (fuel : Nat) (s : List Char) : List Char :=
  match fuel, s with
  | 0, s => s
  | _ + 1, [] => []
  | fuel + 1, c :: rest =>
    if c = backtickChar then
      let run := rest.takeWhile (fun a => a != backtickChar && a != '\n')
      if 0 < run.length ∧ (rest.drop run.length).take 1 = [backtickChar] then
        inlineOpenT ++ run ++ inlineCloseT ++ inlineCodeGo fuel (rest.drop (run.length + 1))
      else c :: inlineCodeGo fuel rest
    else c :: inlineCodeGo fuel rest

def inlineCodeStep (s : List Char) : List Char := inlineCodeGo s.length s

/-! Bold pass: `/\*\*(.*?)\*\*/g` → `<strong>$1</strong>`.  The lazy
capture cannot contain a newline (`.`), so the closing `**` is the
first one on the same line. -/

def strongOpenT : List Char := ("<strong>").data
def strongCloseT : List Char := ("</strong>").data

/-- Distance to the first `**` occurrence, failing at a newline. -/
def findDoubleStar : List Char → Option Nat
  | '*' :: '*' :: _ => some 0
  | '\n' :: _ => none
  | _ :: rest => (findDoubleStar rest).map (fun i => i + 1)
  | [] => none

def boldGo (fuel : Nat) (s : List Char) : List Char :=
  match fuel, s with
  | 0, s => s
  | _ + 1, [] => []
  | fuel + 1, c :: rest =>
    if c = '*' ∧ rest.take 1 = ['*'] then
      let rest2 := rest.drop 1
      match findDoubleStar rest2 with
      | some j => strongOpenT ++ rest2.take j ++ strongCloseT ++ boldGo fuel (rest2.drop (j + 2))
      | none => c :: boldGo fuel rest
    else c :: boldGo fuel rest

def boldStep (s : List Char) : List Char := boldGo s.length s

/-! Italic pass: `/\*(.*?)\*/g` → `<em>$1</em>`. -/

def emOpenT : List Char := ("<em>").data
def emCloseT : List Char := ("</em>").data

/-- Distance to the first `*`, failing at a newline. -/
def findStar : List Char → Option Nat
  | '*' :: _ => some 0
  | '\n' :: _ => none
  | _ :: rest => (findStar rest).map (fun i => i + 1)
  | [] => none

def italicGo (fuel : Nat) (s : List Char) : List Char :=
  match fuel, s with
  | 0, s => s
  | _ + 1, [] => []
  | fuel + 1, c :: rest =>
    if c = '*' then
      match findStar rest with
      | some j => emOpenT ++ rest.take j ++ emCloseT ++ italicGo fuel (rest.drop (j + 1))
      | none => c :: italicGo fuel rest
    else c :: italicGo fuel rest

def italicStep (s : List Char) : List Char := italicGo s.length s

/-! Header passes: `/^### (.*$)/gm` etc., applied `###`, `##`, `#`. -/

def headerLine (marker openT closeT : List Char) (line : List Char) : List Char :=
  if marker.isPrefixOf line then openT ++ line.drop marker.length ++ closeT else line

def h3Step (s : List Char) : List Char :=
  mapLines (headerLine ("### ").data ("<h3>").data ("</h3>").data) s

def h2Step (s : List Char) : List Char :=
  mapLines (headerLine ("## ").data ("<h2>").data ("</h2>").data) s

def h1Step (s : List Char) : List Char :=
  mapLines (headerLine ("# ").data ("<h1>").data ("</h1>").data) s

/-- List-item pass: `/^- (.*$)/gm` → `<li>$1</li>`. -/
def liStep (s : List Char) : List Char :=
  mapLines (headerLine ("- ").data ("<li>").data ("</li>").data) s

/-- script.js lines 530-533: `html.replace(/(<li>.*<\/li>)/gm, fn)`
where `fn` re-replaces every lazy `<li>...</li>` (with a lookahead)
by `'$1'`, i.e. by itself.  Both replaces map every match to itself,
so the whole step is the identity on any string. -/
def listItemsNoop (s : List Char) : List Char := s

/-! List wrapping pass (`<ul>`):
`/(<li>.*?<\/li>)(\s*<li>.*?<\/li>)*/g` → `'<ul>$&</ul>'`. -/

def liOpenT : List Char := ("<li>").data
def liCloseT : List Char := ("</li>").data
def ulOpenT : List Char := ("<ul>").data
def ulCloseT : List Char := ("</ul>").data

/-- Distance to the first `</li>` occurrence, failing at a newline
(the lazy `.*?` cannot cross a line). -/
def findLiClose : List Char → Option Nat
  | [] => none
  | c :: rest =>
    if liCloseT.isPrefixOf (c :: rest) then some 0
    else if c = '\n' then none
    else (findLiClose rest).map (fun i => i + 1)

/-- Match one `<li>.*?</li>` item at the head; returns the matched
text and the remainder. -/
def matchLiItem (s : List Char) : Option (List Char × List Char) :=
  if liOpenT.isPrefixOf s then
    match findLiClose (s.drop 4) with
    | some j => some (s.take (4 + j + 5), s.drop (4 + j + 5))
    | none => none
  else none

/-- Greedily consume `(\s*<li>.*?<\/li>)*`: whitespace (backtracked if
no item follows) then another item, as many times as possible. -/
def liRunGo (fuel : Nat) (s : List Char) : List Char × List Char :=
  match fuel with
  | 0 => ([], s)
  | fuel + 1 =>
    let ws := s.takeWhile Char.isWhitespace
    match matchLiItem (s.drop ws.length) with
    | some (item, rest) =>
      let (more, fin) := liRunGo fuel rest
      (ws ++ item ++ more, fin)
    | none => ([], s)

def ulWrapGo (fuel : Nat) (s : List Char) : List Char :=
  match fuel, s with
  | 0, s => s
  | _ + 1, [] => []
  | fuel + 1, c :: rest =>
    match matchLiItem (c :: rest) with
    | some (item, r) =>
      let (more, fin) := liRunGo r.length r
      ulOpenT ++ item ++ more ++ ulCloseT ++ ulWrapGo fuel fin
    | none => c :: ulWrapGo fuel rest

def ulWrapStep (s : List Char) : List Char := ulWrapGo s.length s

/-- Line-break pass: `.replace(/\n/g, '<br>')`. -/
def nlToBr (s : List Char) : List Char := replaceChar '\n' (("<br>").data) s

/-- The markdown transformation chain of `formatMessage` applied after
the HTML escape, in source order. -/
def markdownSteps (html0 : List Char) : List Char :=
  let html := codeBlockStep html0
  let html := inlineCodeStep html
  let html := boldStep html
  let html := italicStep html
  let html := h3Step html
  let html := h2Step html
  let html := h1Step html
  let html := liStep html
  let html := listItemsNoop html
  let html := ulWrapStep html
  let html := nlToBr html
  html

/-- Body of `formatMessage` for truthy input: escape first, then the
markdown passes (script.js lines 496-541). -/
def formatBody (text : List Char) : List Char :=
  let html := escapeHtml text
  let html := codeBlockStep html
  let html := inlineCodeStep html
  let html := boldStep html
  let html := italicStep html
  let html := h3Step html
  let html := h2Step html
  let html := h1Step html
  let html := liStep html
  let html := listItemsNoop html
  let html := ulWrapStep html
  let html := nlToBr html
  html

/-- Definition of `formatMessage(text)` (script.js lines 492-542).  `none` models a
JS null/undefined argument; the `!text` guard also returns `''` for
the empty string. -/
def formatMessage : Option (List Char) → List Char
  | none => []
  | some t => if t = [] then [] else formatBody t

/-! The streaming read loop of `sendMessage` (script.js lines 258-308). -/

/-- The branch `JSON.parse` sends the handler into for one `data:`
payload: `token` carries a truthy `parsed.token`; `meta` carries a
defined `parsed.memories_added`; `other` is valid JSON taking neither
branch.  A parse failure (the `catch`) is `none` at the call site. -/
inductive ParsedData where
  | token (t : List Char)
  | meta (memoriesAdded : Nat)
  | other
deriving DecidableEq

/-- State of the streaming turn inside `sendMessage`: the partial-frame
`buffer`, the accumulated `fullResponse`, the innerHTML of the
streaming message's content div (`displayed`), whether the `[DONE]`
marker caused the early `return` (`closed`), whether
`finalizeStreamingMessage` ran (`finalized`) and with which count.
`tokens` and `events` are ghost logs: the token fragments in emission
order and the complete trimmed frames processed, in order. -/
structure StreamState where
  buffer : List Char
  fullResponse : List Char
  displayed : List Char
  closed : Bool
  finalized : Bool
  memoriesAdded : Nat
  tokens : List (List Char)
  events : List (List Char)
deriving DecidableEq

/-- Literal `'<span class="cursor">|</span>'`, the in-progress cursor marker. -/
def cursorSpan : List Char := ("<span class=\"cursor\">|</span>").data

/-- The `'data: '` frame tag. -/
def dataTag : List Char := ("data: ").data

/-- The `'[DONE]'` end-of-stream marker. -/
def doneTag : List Char := ("[DONE]").data

/-- Handling of one complete trimmed line (script.js lines 281-306):
only `data: ` lines act; `[DONE]` returns from `sendMessage`; a token
appends to `fullResponse` and re-renders the streaming message from
the full buffer plus cursor (`updateStreamingMessage`); final metadata
removes the cursor (`finalizeStreamingMessage`); valid JSON with
neither field, or a parse error, falls through with no state change. -/
def processLine (jp : List Char → Option ParsedData) (line : List Char)
    (st : StreamState) : StreamState :=
  if dataTag.isPrefixOf line then
    if line.drop 6 = doneTag then { st with closed := true }
    else
      match jp (line.drop 6) with
      | some (ParsedData.token t) =>
        { st with
            fullResponse := st.fullResponse ++ t
            tokens := st.tokens ++ [t]
            displayed := formatMessage (some (st.fullResponse ++ t)) ++ cursorSpan }
      | some (ParsedData.meta m) =>
        { st with
            finalized := true
            memoriesAdded := m
            displayed := replaceFirst cursorSpan [] st.displayed }
      | some ParsedData.other => st
      | none => st
  else st

/-- One iteration of the inner `while (buffer.includes('\n\n'))` loop
body applied to an extracted raw frame `pre` (the buffer has already
been advanced past the boundary): trim, log the processed frame, and
handle it. -/
def frameStep (jp : List Char → Option ParsedData) (st : StreamState)
    (pre : List Char) : StreamState :=
  processLine jp (jsTrim pre) { st with events := st.events ++ [jsTrim pre] }

/-- Split at the first `'\n\n'` boundary: `buffer.indexOf('\n\n')`
giving the text before the boundary and the text after it. -/
def splitAtBoundary : List Char → Option (List Char × List Char)
  | [] => none
  | [_] => none
  | c :: d :: rest =>
    if c = '\n' ∧ d = '\n' then some ([], rest)
    else (splitAtBoundary (d :: rest)).map (fun pr => (c :: pr.1, pr.2))

/-- Fuelled inner loop: while a frame boundary is present and the
function has not returned, extract and process the next frame. -/
def drainF (jp : List Char → Option ParsedData) : Nat → StreamState → StreamState
  | 0, st => st
  | fuel + 1, st =>
    if st.closed then st
    else
      match splitAtBoundary st.buffer with
      | none => st
      | some (pre, rest) => drainF jp fuel (frameStep jp { st with buffer := rest } pre)

/-- The inner loop run to completion (the buffer length bounds the
number of iterations, each consuming at least the two boundary
characters). -/
def drain (jp : List Char → Option ParsedData) (st : StreamState) : StreamState :=
  drainF jp st.buffer.length st

/-- One outer `reader.read()` iteration delivering `chunk`: append the
decoded chunk to the buffer and process all complete frames.  After
the `[DONE]` early return no further read happens, so a closed state
absorbs the chunk. -/
def feed (jp : List Char → Option ParsedData) (st : StreamState)
    (chunk : List Char) : StreamState :=
  if st.closed then st else drain jp { st with buffer := st.buffer ++ chunk }

/-- State at the start of the read loop: empty buffer and response,
the placeholder showing only the cursor. -/
def initStream : StreamState :=
  { buffer := []
    fullResponse := []
    displayed := cursorSpan
    closed := false
    finalized := false
    memoriesAdded := 0
    tokens := []
    events := [] }

/-- The whole read loop over a sequence of decoded chunks. -/
def runStream (jp : List Char → Option ParsedData)
    (chunks : List (List Char)) : StreamState :=
  chunks.foldl (feed jp) initStream

/-- Observable part of the stream state: everything except the
partial-frame buffer (which is dead after the loop exits). -/
def obs (st : StreamState) : StreamState := { st with buffer := [] }

/-! Client-side session registry and page state (script.js globals and
the `sendMessage` / `createNewChatWithMessage` / `deleteChat` flows). -/

/-- One entry of the client's `chats` array. -/
structure Chat where
  id : List Char
  title : List Char
  created_at : Nat
  updated_at : Nat
deriving DecidableEq

/-- Client page state: the globals `currentChatId`, `chats`,
`isGenerating`, plus the DOM pieces the claims talk about —
`sendButton.disabled`, the input box value, the rendered message
contents, the empty-state visibility, the error messages added by
`addErrorMessage`, the `alert`s, and the streaming turn's state. -/
structure UIState where
  currentChatId : Option (List Char)
  chatTitle : List Char
  chats : List Chat
  isGenerating : Bool
  sendDisabled : Bool
  inputValue : List Char
  messagesHtml : List (List Char)
  emptyShown : Bool
  errors : List (List Char)
  alerts : List (List Char)
  turnStream : Option StreamState
deriving DecidableEq

/-- Result of an awaited `fetch`: a delivered response or a thrown
exception caught by the surrounding `catch`. -/
inductive FetchResult (α : Type) where
  | ok (value : α)
  | thrown (message : List Char)
deriving DecidableEq

/-- The JSON body answered by `POST /new-chat`. -/
structure NewChatData where
  error : Option (List Char)
  chat_id : List Char
  title : List Char
  response : List Char
  memories_added : Nat
deriving DecidableEq

/-- A delivered `/chat-stream` response: its `response.ok` status and
the decoded chunks its body reader yields. -/
structure TurnFetch where
  okStatus : Bool
  chunks : List (List Char)
deriving DecidableEq

/-- Result of the `DELETE /chat/:id` fetch. -/
inductive DeleteResponse where
  | okResp
  | notOk
  | thrown (message : List Char)
deriving DecidableEq

/-- How a `sendMessage` call ended at the guard: not started (the
early `return`), ran the new-chat path, or ran a streaming turn. -/
inductive SendOutcome where
  | notStarted
  | ranNewChat
  | ranTurn
deriving DecidableEq

def connectionErrorMsg : List Char := ("Connection error: ").data
def failedCreateMsg : List Char := ("Failed to create new chat: ").data
def httpErrorMsg : List Char := ("HTTP error").data
def deleteFailedMsg : List Char := ("Failed to delete chat").data
def deleteErrorMsg : List Char := ("Error deleting chat: ").data
def defaultChatTitle : List Char := ("Llama 3 8B Multi-Chat").data

/-- Sidebar update after the read loop (script.js lines 310-317):
find the current chat, splice it out, stamp `updated_at`, and unshift
it to the front. -/
def moveToFront (chats : List Chat) (cid : List Char) (now : Nat) : List Chat :=
  match chats.findIdx? (fun c => c.id == cid) with
  | none => chats
  | some i =>
    match chats[i]? with
    | none => chats
    | some c => { c with updated_at := now } :: chats.eraseIdx i

/-- Model of `createNewChatWithMessage` (script.js lines 162-215): clear the
container, show the user message, clear the input, raise the flag and
disable the button, post `/new-chat`; on success unshift the new chat
and select it, on a server-reported error or a thrown exception show
the error; the `finally` block always resets the flag and button. -/
def createNewChatWithMessage (st : UIState) (message : List Char)
    (resp : FetchResult NewChatData) (now : Nat) : UIState :=
  let st1 := { st with
      messagesHtml := [message]
      inputValue := []
      isGenerating := true
      sendDisabled := true }
  let st2 :=
    match resp with
    | FetchResult.thrown e => { st1 with errors := st1.errors ++ [failedCreateMsg ++ e] }
    | FetchResult.ok data =>
      match data.error with
      | some e => { st1 with errors := st1.errors ++ [e] }
      | none =>
        let newChat : Chat :=
          { id := data.chat_id, title := data.title, created_at := now, updated_at := now }
        { st1 with
            chats := newChat :: st1.chats
            currentChatId := some data.chat_id
            chatTitle := data.title
            messagesHtml := st1.messagesHtml ++ [data.response] }
  { st2 with isGenerating := false, sendDisabled := false }

/-- The streaming-turn body of `sendMessage` (script.js lines 227-327)
for an existing chat `cid`: show the user message, add the streaming
placeholder, raise the flag, post `/chat-stream`; a thrown fetch or a
non-ok status lands in the `catch` (placeholder removed, connection
error shown); otherwise the read loop runs, and only when the loop
ends by channel exhaustion — not by the `[DONE]` early `return` — is
the current chat moved to the front with a fresh `updated_at`; the
`finally` block always resets the flag and button. -/
def runTurnModel (jp : List Char → Option ParsedData) (st : UIState)
    (cid : List Char) (message : List Char) (resp : FetchResult TurnFetch)
    (now : Nat) : UIState :=
  let st1 := { st with
      messagesHtml := st.messagesHtml ++ [message]
      inputValue := []
      isGenerating := true
      sendDisabled := true
      turnStream := some initStream }
  let st2 :=
    match resp with
    | FetchResult.thrown e =>
      { st1 with
          turnStream := none
          errors := st1.errors ++ [connectionErrorMsg ++ e] }
    | FetchResult.ok tf =>
      if tf.okStatus = false then
        { st1 with
            turnStream := none
            errors := st1.errors ++ [connectionErrorMsg ++ httpErrorMsg] }
      else
        let s := runStream jp tf.chunks
        if s.closed then { st1 with turnStream := some s }
        else
          { st1 with
              turnStream := some s
              chats := moveToFront st1.chats cid now }
  { st2 with isGenerating := false, sendDisabled := false }

/-- Model of `sendMessage` (script.js lines 217-328): trim the input; the guard
`if (!message || isGenerating) return;` drops the call with no effect
at all; otherwise a missing `currentChatId` routes to the new-chat
path and an existing one to a streaming turn. -/
def sendMessageModel (jp : List Char → Option ParsedData) (st : UIState)
    (newResp : FetchResult NewChatData) (turnResp : FetchResult TurnFetch)
    (now : Nat) : UIState × SendOutcome :=
  let message := jsTrim st.inputValue
  if message = [] ∨ st.isGenerating = true then (st, SendOutcome.notStarted)
  else
    match st.currentChatId with
    | none => (createNewChatWithMessage st message newResp now, SendOutcome.ranNewChat)
    | some cid => (runTurnModel jp st cid message turnResp now, SendOutcome.ranTurn)

/-- Model of `deleteChat` (script.js lines 330-356): after the confirm dialog,
a successful DELETE filters the chat out of the local list and, only
when it was the current chat, clears the main area to the placeholder
state; a failed or throwing request only alerts. -/
def deleteChatOp (st : UIState) (chatId : List Char) (confirmed : Bool)
    (resp : DeleteResponse) : UIState :=
  if confirmed = false then st
  else
    match resp with
    | DeleteResponse.okResp =>
      let st1 := { st with chats := st.chats.filter (fun c => c.id != chatId) }
      if st.currentChatId = some chatId then
        { st1 with
            currentChatId := none
            chatTitle := defaultChatTitle
            messagesHtml := []
            emptyShown := true }
      else st1
    | DeleteResponse.notOk => { st with alerts := st.alerts ++ [deleteFailedMsg] }
    | DeleteResponse.thrown e => { st with alerts := st.alerts ++ [deleteErrorMsg ++ e] }

/-! Lemmas about the frame splitter and the read loop. -/

lemma splitAtBoundary_eq :
    ∀ (s pre rest : List Char), splitAtBoundary s = some (pre, rest) →
      s = pre ++ '\n' :: '\n' :: rest := by
  intro s
  induction s with
  | nil => intro pre rest h; simp [splitAtBoundary] at h
  | cons c tail ih =>
    intro pre rest h
    cases tail with
    | nil => simp [splitAtBoundary] at h
    | cons d tail' =>
      rw [splitAtBoundary] at h
      split at h
      · rename_i hcd
        obtain ⟨hc, hd⟩ := hcd
        injection h with h
        injection h with h1 h2
        subst h1; subst h2; subst hc; subst hd
        rfl
      · rw [Option.map_eq_some'] at h
        obtain ⟨⟨p, r⟩, hsub, hpr⟩ := h
        have hpr' : c :: p = pre ∧ r = rest := by simpa using hpr
        obtain ⟨h1, h2⟩ := hpr'
        subst h2
        have := ih p r hsub
        rw [this, ← h1]
        rfl

lemma splitAtBoundary_append :
    ∀ (u v pre rest : List Char), splitAtBoundary u = some (pre, rest) →
      splitAtBoundary (u ++ v) = some (pre, rest ++ v) := by
  intro u
  induction u with
  | nil => intro v pre rest h; simp [splitAtBoundary] at h
  | cons c tail ih =>
    intro v pre rest h
    cases tail with
    | nil => simp [splitAtBoundary] at h
    | cons d tail' =>
      rw [splitAtBoundary] at h
      rw [List.cons_append, List.cons_append, splitAtBoundary]
      split at h
      · rename_i hcd
        injection h with h
        injection h with h1 h2
        subst h1; subst h2
        rw [if_pos hcd]
      · rename_i hcd
        rw [if_neg hcd]
        rw [Option.map_eq_some'] at h
        obtain ⟨⟨p, r⟩, hsub, hpr⟩ := h
        have hpr' : c :: p = pre ∧ r = rest := by simpa using hpr
        obtain ⟨h1, h2⟩ := hpr'
        subst h2
        have := ih v p r hsub
        rw [← List.cons_append, this, Option.map_some']
        simp [← h1]

lemma processLine_buffer (jp : List Char → Option ParsedData) (line : List Char)
    (st : StreamState) : (processLine jp line st).buffer = st.buffer := by
  unfold processLine
  split
  · split
    · rfl
    · split <;> rfl
  · rfl

lemma processLine_set_buffer (jp : List Char → Option ParsedData) (line : List Char)
    (st : StreamState) (b : List Char) :
    processLine jp line { st with buffer := b } =
      { processLine jp line st with buffer := b } := by
  unfold processLine
  split
  · split
    · rfl
    · split <;> rfl
  · rfl

lemma frameStep_buffer (jp : List Char → Option ParsedData) (st : StreamState)
    (pre : List Char) : (frameStep jp st pre).buffer = st.buffer := by
  unfold frameStep
  rw [processLine_buffer]

lemma frameStep_set_buffer (jp : List Char → Option ParsedData) (st : StreamState)
    (pre b : List Char) :
    frameStep jp { st with buffer := b } pre = { frameStep jp st pre with buffer := b } := by
  unfold frameStep
  exact processLine_set_buffer jp (jsTrim pre) { st with events := st.events ++ [jsTrim pre] } b

lemma drainF_fuel (jp : List Char → Option ParsedData) :
    ∀ (n m : Nat) (st : StreamState), st.buffer.length ≤ n →
      st.buffer.length ≤ m → drainF jp n st = drainF jp m st := by
  intro n
  induction n with
  | zero =>
    intro m st h1 _
    have hb : st.buffer = [] := List.length_eq_zero.mp (Nat.le_zero.mp h1)
    cases m with
    | zero => rfl
    | succ m =>
      rw [drainF, drainF]
      split
      · rfl
      · rw [hb]
        rfl
  | succ n ih =>
    intro m st h1 h2
    cases m with
    | zero =>
      have hb : st.buffer = [] := List.length_eq_zero.mp (Nat.le_zero.mp h2)
      rw [drainF, drainF]
      split
      · rfl
      · rw [hb]
        rfl
    | succ m =>
      rw [drainF, drainF]
      split
      · rfl
      · cases hsb : splitAtBoundary st.buffer with
        | none => rfl
        | some pr =>
          obtain ⟨pre, rest⟩ := pr
          show drainF jp n (frameStep jp { st with buffer := rest } pre) =
            drainF jp m (frameStep jp { st with buffer := rest } pre)
          have hlen := splitAtBoundary_eq st.buffer pre rest hsb
          have hr : rest.length + 2 ≤ st.buffer.length := by
            rw [hlen]; simp only [List.length_append, List.length_cons]; omega
          have hb' : (frameStep jp { st with buffer := rest } pre).buffer = rest := by
            rw [frameStep_buffer]
          apply ih
          · rw [hb']; omega
          · rw [hb']; omega

lemma drain_eq (jp : List Char → Option ParsedData) (st : StreamState) :
    drain jp st =
      if st.closed then st
      else
        match splitAtBoundary st.buffer with
        | none => st
        | some (pre, rest) => drain jp (frameStep jp { st with buffer := rest } pre) := by
  unfold drain
  cases hbuf : st.buffer with
  | nil =>
    rw [List.length_nil]
    split
    · rfl
    · rfl
  | cons c tail =>
    rw [List.length_cons, drainF, hbuf]
    split
    · rfl
    · cases hsb : splitAtBoundary (c :: tail) with
      | none => rfl
      | some pr =>
        obtain ⟨pre, rest⟩ := pr
        show drainF jp tail.length (frameStep jp { st with buffer := rest } pre) =
          drainF jp (frameStep jp { st with buffer := rest } pre).buffer.length
            (frameStep jp { st with buffer := rest } pre)
        have hlen := splitAtBoundary_eq (c :: tail) pre rest hsb
        have hb' : (frameStep jp { st with buffer := rest } pre).buffer = rest := by
          rw [frameStep_buffer]
        have hct : tail.length + 1 = pre.length + 2 + rest.length := by
          have := congrArg List.length hlen
          simp only [List.length_cons, List.length_append] at this
          omega
        apply drainF_fuel
        · rw [hb']; omega
        · rw [hb']

lemma drain_closed {jp : List Char → Option ParsedData} {st : StreamState}
    (h : st.closed = true) : drain jp st = st := by
  rw [drain_eq, if_pos h]

lemma drain_none {jp : List Char → Option ParsedData} {st : StreamState}
    (h : splitAtBoundary st.buffer = none) : drain jp st = st := by
  rw [drain_eq]
  split
  · rfl
  · rw [h]

/-- A state the inner loop has finished with: either the function
returned, or no complete frame remains buffered. -/
def Drained (st : StreamState) : Prop :=
  st.closed = true ∨ splitAtBoundary st.buffer = none

lemma drain_drained_aux (jp : List Char → Option ParsedData) :
    ∀ (n : Nat) (st : StreamState), st.buffer.length ≤ n → Drained (drain jp st) := by
  intro n
  induction n with
  | zero =>
    intro st h
    have hb : st.buffer = [] := List.length_eq_zero.mp (Nat.le_zero.mp h)
    rw [drain_none (by rw [hb]; rfl)]
    exact Or.inr (by rw [hb]; rfl)
  | succ n ih =>
    intro st h
    rw [drain_eq]
    split
    · rename_i hcl
      exact Or.inl hcl
    · cases hsb : splitAtBoundary st.buffer with
      | none => exact Or.inr hsb
      | some pr =>
        obtain ⟨pre, rest⟩ := pr
        have hlen := splitAtBoundary_eq st.buffer pre rest hsb
        have hr : rest.length + 2 ≤ st.buffer.length := by
          rw [hlen]; simp only [List.length_append, List.length_cons]; omega
        apply ih
        have hb' : (frameStep jp { st with buffer := rest } pre).buffer = rest := by
          rw [frameStep_buffer]
        rw [hb']
        omega

lemma drain_drained (jp : List Char → Option ParsedData) (st : StreamState) :
    Drained (drain jp st) :=
  drain_drained_aux jp st.buffer.length st le_rfl

lemma obs_set_buffer (st : StreamState) (b : List Char) :
    obs { st with buffer := b } = obs st := rfl

lemma feed_drain_append (jp : List Char → Option ParsedData) :
    ∀ (n : Nat) (u v : List Char) (st : StreamState), u.length = n →
      st.closed = false →
      obs (feed jp (drain jp { st with buffer := u }) v) =
        obs (drain jp { st with buffer := u ++ v }) := by
  intro n
  induction n using Nat.strong_induction_on with
  | _ n ih =>
    intro u v st hlen hcl
    cases hsb : splitAtBoundary u with
    | none =>
      have h1 : drain jp { st with buffer := u } = { st with buffer := u } :=
        drain_none hsb
      rw [h1]
      unfold feed
      rw [if_neg (by simpa using (by rw [hcl]; simp : ¬ st.closed = true))]
    | some pr =>
      obtain ⟨pre, rest⟩ := pr
      have hu := splitAtBoundary_eq u pre rest hsb
      have hlt : rest.length < n := by
        rw [← hlen, hu]; simp only [List.length_append, List.length_cons]; omega
      have h1 : drain jp { st with buffer := u } =
          drain jp (frameStep jp { st with buffer := rest } pre) := by
        rw [drain_eq]
        rw [if_neg (by rw [hcl]; simp : ¬ ({ st with buffer := u } : StreamState).closed = true)]
        simp only []
        rw [hsb]
      have hsb2 : splitAtBoundary (u ++ v) = some (pre, rest ++ v) :=
        splitAtBoundary_append u v pre rest hsb
      have h2 : drain jp { st with buffer := u ++ v } =
          drain jp (frameStep jp { st with buffer := rest ++ v } pre) := by
        rw [drain_eq]
        rw [if_neg (by rw [hcl]; simp : ¬ ({ st with buffer := u ++ v } : StreamState).closed = true)]
        simp only []
        rw [hsb2]
      have hq2 : frameStep jp ({ st with buffer := rest ++ v }) pre =
          { frameStep jp { st with buffer := rest } pre with buffer := rest ++ v } :=
        frameStep_set_buffer jp { st with buffer := rest } pre (rest ++ v)
      rw [h1, h2, hq2]
      set q := frameStep jp { st with buffer := rest } pre with hq
      have hqb : q.buffer = rest := by rw [hq, frameStep_buffer]
      cases hqc : q.closed with
      | true =>
        rw [drain_closed hqc, drain_closed (show ({ q with buffer := rest ++ v } : StreamState).closed = true from hqc)]
        unfold feed
        rw [if_pos hqc]
        rfl
      | false =>
        have heta : ({ q with buffer := rest } : StreamState) = q := by
          rw [← hqb]
        have := ih rest.length hlt rest v q rfl hqc
        rw [heta] at this
        exact this

lemma feed_assoc (jp : List Char → Option ParsedData) (st : StreamState)
    (a b : List Char) :
    obs (feed jp (feed jp st a) b) = obs (feed jp st (a ++ b)) := by
  cases hc : st.closed with
  | true => simp [feed, hc]
  | false =>
    have ha : feed jp st a = drain jp { st with buffer := st.buffer ++ a } := by
      unfold feed; rw [if_neg (by rw [hc]; simp)]
    have hab : feed jp st (a ++ b) = drain jp { st with buffer := st.buffer ++ (a ++ b) } := by
      unfold feed; rw [if_neg (by rw [hc]; simp)]
    rw [ha, hab, ← List.append_assoc]
    exact feed_drain_append jp (st.buffer ++ a).length (st.buffer ++ a) b st rfl hc

lemma feed_nil {jp : List Char → Option ParsedData} {st : StreamState}
    (h : Drained st) : feed jp st [] = st := by
  cases h with
  | inl hc => unfold feed; rw [if_pos hc]
  | inr hn =>
    unfold feed
    split
    · rfl
    · rw [List.append_nil]
      exact drain_none hn

lemma feed_drained (jp : List Char → Option ParsedData) (st : StreamState)
    (c : List Char) : Drained (feed jp st c) := by
  unfold feed
  split
  · rename_i hc
    exact Or.inl hc
  · exact drain_drained jp _

lemma foldl_feed_flatten (jp : List Char → Option ParsedData) :
    ∀ (cs : List (List Char)) (st : StreamState), Drained st →
      obs (List.foldl (feed jp) st cs) = obs (feed jp st cs.flatten) := by
  intro cs
  induction cs with
  | nil =>
    intro st h
    simp only [List.foldl_nil, List.flatten_nil]
    rw [feed_nil h]
  | cons c cs ih =>
    intro st h
    simp only [List.foldl_cons, List.flatten_cons]
    rw [ih (feed jp st c) (feed_drained jp st c), feed_assoc]

lemma drained_initStream : Drained initStream := Or.inr rfl

/-- C3: for every event stream and every way of splitting it into read
chunks, the client read loop leaves the same observable state — the
same sequence of processed frames (`events`), the same accumulated
response, display, termination and finalization status.  Only the dead
partial-frame `buffer` is excluded by `obs`.  The parser acts only on
complete `'\n\n'`-delimited frames, buffers a partial frame across
reads, handles several frames per read, and never re-processes a
boundary, since any two chunkings of the same byte sequence — in
particular the one-chunk-per-frame one — agree. -/
theorem c3_stream_chunk_invariance (jp : List Char → Option ParsedData)
    (cs₁ cs₂ : List (List Char)) (h : cs₁.flatten = cs₂.flatten) :
    obs (runStream jp cs₁) = obs (runStream jp cs₂) := by
  unfold runStream
  rw [foldl_feed_flatten jp cs₁ initStream drained_initStream,
    foldl_feed_flatten jp cs₂ initStream drained_initStream, h]

def jpNoneW : List Char → Option ParsedData := fun _ => none

def chunksW1 : List (List Char) := [("data: a\ndat").data, ("a: b\n\ndata: c\n").data, ("\n").data]

def chunksW2 : List (List Char) := [("data: a\ndata: b\n\ndata: c\n\n").data]

/-- Witness for C3 at a concrete split where a frame boundary falls
exactly at a chunk edge. -/
theorem c3_stream_chunk_invariance_witness :
    obs (runStream jpNoneW chunksW1) = obs (runStream jpNoneW chunksW2) :=
  c3_stream_chunk_invariance jpNoneW chunksW1 chunksW2 (by decide)

/-! The token-accumulation invariant: `fullResponse` is always the
concatenation of the token fragments received so far. -/

lemma processLine_tokens (jp : List Char → Option ParsedData) (line : List Char)
    (st : StreamState) (h : st.fullResponse = st.tokens.flatten) :
    (processLine jp line st).fullResponse = (processLine jp line st).tokens.flatten := by
  unfold processLine
  split
  · split
    · exact h
    · split
      · rename_i t _
        show st.fullResponse ++ t = (st.tokens ++ [t]).flatten
        rw [h, List.flatten_append]
        simp
      · exact h
      · exact h
      · exact h
  · exact h

lemma frameStep_tokens (jp : List Char → Option ParsedData) (st : StreamState)
    (pre : List Char) (h : st.fullResponse = st.tokens.flatten) :
    (frameStep jp st pre).fullResponse = (frameStep jp st pre).tokens.flatten :=
  processLine_tokens jp (jsTrim pre) _ h

lemma drainF_tokens (jp : List Char → Option ParsedData) :
    ∀ (n : Nat) (st : StreamState), st.fullResponse = st.tokens.flatten →
      (drainF jp n st).fullResponse = (drainF jp n st).tokens.flatten := by
  intro n
  induction n with
  | zero => intro st h; exact h
  | succ n ih =>
    intro st h
    rw [drainF]
    split
    · exact h
    · cases hsb : splitAtBoundary st.buffer with
      | none => exact h
      | some pr =>
        obtain ⟨pre, rest⟩ := pr
        exact ih _ (frameStep_tokens jp _ pre h)

lemma feed_tokens (jp : List Char → Option ParsedData) (st : StreamState)
    (c : List Char) (h : st.fullResponse = st.tokens.flatten) :
    (feed jp st c).fullResponse = (feed jp st c).tokens.flatten := by
  unfold feed
  split
  · exact h
  · exact drainF_tokens jp _ _ h

lemma runStream_tokens (jp : List Char → Option ParsedData) (chunks : List (List Char)) :
    (runStream jp chunks).fullResponse = (runStream jp chunks).tokens.flatten := by
  unfold runStream
  have main : ∀ (cs : List (List Char)) (st : StreamState),
      st.fullResponse = st.tokens.flatten →
      (List.foldl (feed jp) st cs).fullResponse =
        (List.foldl (feed jp) st cs).tokens.flatten := by
    intro cs
    induction cs with
    | nil => intro st h; exact h
    | cons c cs ih =>
      intro st h
      exact ih _ (feed_tokens jp st c h)
  exact main chunks initStream rfl

/-- C4: during a streamed turn, a token event appends its fragment to
the emission-order token log, keeps `fullResponse` equal to the
concatenation of all fragments received so far, and re-renders the
displayed assistant message as `formatMessage` of that full
concatenation (plus the cursor affordance) — the presentation is
recomputed from the full buffer via `formatMessage`, never patched
incrementally.  The state is any state reachable by the read loop. -/
theorem c4_token_display_full_rerender (jp : List Char → Option ParsedData)
    (chunks : List (List Char)) (d t : List Char)
    (hj : jp d = some (ParsedData.token t)) (hd : d ≠ doneTag) :
    (processLine jp (dataTag ++ d) (runStream jp chunks)).tokens =
        (runStream jp chunks).tokens ++ [t] ∧
      (processLine jp (dataTag ++ d) (runStream jp chunks)).fullResponse =
        ((runStream jp chunks).tokens ++ [t]).flatten ∧
      (processLine jp (dataTag ++ d) (runStream jp chunks)).displayed =
        formatMessage (some (((runStream jp chunks).tokens ++ [t]).flatten)) ++ cursorSpan := by
  have hpref : dataTag.isPrefixOf (dataTag ++ d) = true := by
    rw [ List.isPrefixOf_iff_prefix]
    exact List.prefix_append dataTag d
  have hdrop : (dataTag ++ d).drop 6 = d := List.drop_left dataTag d
  have hinv := runStream_tokens jp chunks
  set st := runStream jp chunks with hst
  unfold processLine
  rw [hpref, if_pos rfl, hdrop, if_neg hd, hj]
  have hflat : (st.tokens ++ [t]).flatten = st.fullResponse ++ t := by
    rw [List.flatten_append, hinv]
    simp
  refine ⟨rfl, ?_, ?_⟩
  · show st.fullResponse ++ t = (st.tokens ++ [t]).flatten
    rw [hflat]
  · show formatMessage (some (st.fullResponse ++ t)) ++ cursorSpan =
      formatMessage (some ((st.tokens ++ [t]).flatten)) ++ cursorSpan
    rw [hflat]

def jpTokW : List Char → Option ParsedData :=
  fun d => if d = ("t1").data then some (ParsedData.token (("Hello").data)) else none

/-- Witness for C4: one token event from the initial state. -/
theorem c4_token_display_full_rerender_witness :
    (processLine jpTokW (dataTag ++ ("t1").data) (runStream jpTokW [])).tokens =
        (runStream jpTokW []).tokens ++ [("Hello").data] ∧
      (processLine jpTokW (dataTag ++ ("t1").data) (runStream jpTokW [])).fullResponse =
        ((runStream jpTokW []).tokens ++ [("Hello").data]).flatten ∧
      (processLine jpTokW (dataTag ++ ("t1").data) (runStream jpTokW [])).displayed =
        formatMessage (some (((runStream jpTokW []).tokens ++ [("Hello").data]).flatten)) ++
          cursorSpan :=
  c4_token_display_full_rerender jpTokW [] (("t1").data) (("Hello").data) (by decide) (by decide)

/-- C10: a complete frame whose `data: ` payload is neither `[DONE]`
nor valid JSON (`JSON.parse` throws, modelled by `jp` returning
`none`) is skipped by the `catch`: the whole stream state — buffer,
accumulated `fullResponse`, `displayed` message, termination and
finalization — is unchanged except for the ghost log of processed
frames, and the inner loop continues with the rest of the buffer
exactly as if it had started there. -/
theorem c10_malformed_frame_skipped (jp : List Char → Option ParsedData)
    (st : StreamState) (d rest : List Char) (hcl : st.closed = false)
    (hpre : dataTag.isPrefixOf (jsTrim d) = true)
    (hnd : (jsTrim d).drop 6 ≠ doneTag)
    (hj : jp ((jsTrim d).drop 6) = none)
    (hsb : splitAtBoundary st.buffer = some (d, rest)) :
    frameStep jp st d = { st with events := st.events ++ [jsTrim d] } ∧
      drain jp st = drain jp { st with buffer := rest, events := st.events ++ [jsTrim d] } := by
  have hgen : ∀ s : StreamState, frameStep jp s d = { s with events := s.events ++ [jsTrim d] } := by
    intro s
    unfold frameStep processLine
    rw [hpre, if_pos rfl, if_neg hnd, hj]
  refine ⟨hgen st, ?_⟩
  conv_lhs => rw [drain_eq]
  rw [if_neg (by rw [hcl]; simp), hsb]
  show drain jp (frameStep jp { st with buffer := rest } d) =
    drain jp { st with buffer := rest, events := st.events ++ [jsTrim d] }
  rw [hgen]

def malformedStreamW : StreamState :=
  { initStream with buffer := ("data: oops\n\nrest").data }

/-- Witness for C10: a non-JSON payload frame followed by residue. -/
theorem c10_malformed_frame_skipped_witness :
    frameStep jpNoneW malformedStreamW (("data: oops").data) =
        { malformedStreamW with
            events := malformedStreamW.events ++ [jsTrim (("data: oops").data)] } ∧
      drain jpNoneW malformedStreamW =
        drain jpNoneW
          { malformedStreamW with
              buffer := ("rest").data
              events := malformedStreamW.events ++ [jsTrim (("data: oops").data)] } :=
  c10_malformed_frame_skipped jpNoneW malformedStreamW (("data: oops").data) (("rest").data)
    rfl (by decide) (by decide) rfl (by decide)

/-! Lemmas for the escape step of `formatMessage`. -/

lemma mem_replaceChar {c : Char} {rep : List Char} {x : Char} :
    ∀ {s : List Char}, x ∈ replaceChar c rep s → x ∈ rep ∨ (x ∈ s ∧ x ≠ c) := by
  intro s
  induction s with
  | nil => intro hx; simp [replaceChar] at hx
  | cons a rest ih =>
    intro hx
    rw [replaceChar] at hx
    rcases List.mem_append.mp hx with h | h
    · by_cases hac : a = c
      · rw [if_pos hac] at h
        exact Or.inl h
      · rw [if_neg hac] at h
        simp only [List.mem_singleton] at h
        subst h
        exact Or.inr ⟨List.mem_cons_self x rest, hac⟩
    · rcases ih h with h1 | ⟨h2, h3⟩
      · exact Or.inl h1
      · exact Or.inr ⟨List.mem_cons_of_mem a h2, h3⟩

lemma escapeHtml_no_specials (t : List Char) (x : Char) (hx : x ∈ escapeHtml t) :
    x ≠ '<' ∧ x ≠ '>' ∧ x ≠ quoteChar ∧ x ≠ apostropheChar := by
  unfold escapeHtml at hx
  rcases mem_replaceChar hx with h | ⟨hx, hApos⟩
  · rw [show aposEnt = ['&', '#', 'x', '2', '7', ';'] from by decide] at h
    fin_cases h <;> refine ⟨by decide, by decide, by decide, by decide⟩
  · rcases mem_replaceChar hx with h | ⟨hx, hQuot⟩
    · rw [show quotEnt = ['&', 'q', 'u', 'o', 't', ';'] from by decide] at h
      fin_cases h <;> refine ⟨by decide, by decide, by decide, by decide⟩
    · rcases mem_replaceChar hx with h | ⟨hx, hGt⟩
      · rw [show gtEnt = ['&', 'g', 't', ';'] from by decide] at h
        fin_cases h <;> refine ⟨by decide, by decide, by decide, by decide⟩
      · rcases mem_replaceChar hx with h | ⟨hx, hLt⟩
        · rw [show ltEnt = ['&', 'l', 't', ';'] from by decide] at h
          fin_cases h <;> refine ⟨by decide, by decide, by decide, by decide⟩
        · rcases mem_replaceChar hx with h | ⟨_, _⟩
          · rw [show ampEnt = ['&', 'a', 'm', 'p', ';'] from by decide] at h
            fin_cases h <;> refine ⟨by decide, by decide, by decide, by decide⟩
          · exact ⟨hLt, hGt, hQuot, hApos⟩

/-- C9: `formatMessage` entity-escapes `&`, `<`, `>`, `"` and `'`
before any markdown transformation runs — its body factors as the
markdown chain applied to `escapeHtml` of the input — and the escape
output contains no raw `<`, `>`, `"` or `'` at all, so every such
character in the produced HTML was introduced by the formatter's own
templates and none originates from the raw input text (input cannot
inject HTML tags); for a null or empty input it returns the empty
string. -/
theorem c9_escape_before_markdown :
    (∀ t : List Char, formatBody t = markdownSteps (escapeHtml t)) ∧
      (∀ (t : List Char) (x : Char), x ∈ escapeHtml t →
        x ≠ '<' ∧ x ≠ '>' ∧ x ≠ quoteChar ∧ x ≠ apostropheChar) ∧
      formatMessage none = [] ∧ formatMessage (some []) = [] :=
  ⟨fun _ => rfl, escapeHtml_no_specials, rfl, rfl⟩

/-- Witness for C9 at the input `"<b>"`, whose escape contains `&`. -/
theorem c9_escape_before_markdown_witness :
    ('&' : Char) ≠ '<' ∧ ('&' : Char) ≠ '>' ∧
      ('&' : Char) ≠ quoteChar ∧ ('&' : Char) ≠ apostropheChar :=
  c9_escape_before_markdown.2.1 (("<b>").data) '&' (by decide)

/-! Concrete fixtures for the registry and guard claims. -/

def chatA : Chat :=
  { id := ("a").data, title := ("Chat A").data, created_at := 10, updated_at := 10 }

def chatB : Chat :=
  { id := ("b").data, title := ("Chat B").data, created_at := 20, updated_at := 20 }

def baseUI : UIState :=
  { currentChatId := none
    chatTitle := defaultChatTitle
    chats := [chatB, chatA]
    isGenerating := false
    sendDisabled := false
    inputValue := []
    messagesHtml := []
    emptyShown := true
    errors := []
    alerts := []
    turnStream := none }

def ncDummyW : NewChatData :=
  { error := none, chat_id := ("c").data, title := ("T").data
    response := ("R").data, memories_added := 0 }

def tfDummyW : TurnFetch := { okStatus := true, chunks := [] }

/-- State with a turn in flight (raised `isGenerating`) while the user
is looking at session `b`. -/
def stBusyCross : UIState :=
  { baseUI with
      currentChatId := some (("b").data)
      isGenerating := true
      sendDisabled := true
      inputValue := ("hello").data }

/-- C1 counterexample: a turn is in flight (the process-wide
`isGenerating` flag is raised, the turn having been started for
session `a`) and the user initiates a send for the different session
`b`; the claim says this proceeds, but `sendMessage` returns at the
guard with no effect: the outcome is `notStarted` and the state is
untouched, so the unrelated session is blocked by the process-wide
flag. -/
theorem c1_cross_session_blocked_cex :
    sendMessageModel jpNoneW stBusyCross (FetchResult.ok ncDummyW)
        (FetchResult.ok tfDummyW) 0 = (stBusyCross, SendOutcome.notStarted) := by
  decide

/-- C1 (amended): the in-flight guard is the single process-wide
`isGenerating` flag: while any turn is in flight, `sendMessage`
returns immediately for every session — same or different — so
unrelated sessions are also blocked, not serialized per session. -/
theorem c1_busy_guard_is_global (jp : List Char → Option ParsedData)
    (st : UIState) (newResp : FetchResult NewChatData)
    (turnResp : FetchResult TurnFetch) (now : Nat) (h : st.isGenerating = true) :
    sendMessageModel jp st newResp turnResp now = (st, SendOutcome.notStarted) := by
  unfold sendMessageModel
  rw [if_pos (Or.inr h)]

/-- Witness for the amended C1. -/
theorem c1_busy_guard_is_global_witness :
    sendMessageModel jpNoneW stBusyCross (FetchResult.ok ncDummyW)
        (FetchResult.ok tfDummyW) 0 = (stBusyCross, SendOutcome.notStarted) ∧
      stBusyCross.isGenerating = true :=
  ⟨c1_busy_guard_is_global jpNoneW stBusyCross (FetchResult.ok ncDummyW)
      (FetchResult.ok tfDummyW) 0 rfl, rfl⟩

/-- State with a turn in flight for session `a` while the user sends a
second message to that same session. -/
def stBusySame : UIState :=
  { baseUI with
      currentChatId := some (("a").data)
      isGenerating := true
      sendDisabled := true
      inputValue := ("again").data }

/-- C2 counterexample: a second send for the session already holding
the in-flight flag returns with the state completely unchanged — in
particular `errors` stays empty, so no busy error is ever shown to the
caller: the request is silently dropped, contradicting the claimed
visible busy rejection. -/
theorem c2_no_busy_error_cex :
    sendMessageModel jpNoneW stBusySame (FetchResult.ok ncDummyW)
        (FetchResult.ok tfDummyW) 5 = (stBusySame, SendOutcome.notStarted) ∧
      stBusySame.errors = [] := by
  decide

/-- C2 (amended): a second send while a turn is in flight is rejected
immediately but silently: `sendMessage` returns before doing anything,
leaving the client state — including the displayed error list —
unchanged; the request is neither queued nor executed and no busy
error is surfaced. -/
theorem c2_second_send_silently_dropped (jp : List Char → Option ParsedData)
    (st : UIState) (newResp : FetchResult NewChatData)
    (turnResp : FetchResult TurnFetch) (now : Nat) (h : st.isGenerating = true) :
    (sendMessageModel jp st newResp turnResp now).1 = st ∧
      (sendMessageModel jp st newResp turnResp now).1.errors = st.errors := by
  unfold sendMessageModel
  rw [if_pos (Or.inr h)]
  exact ⟨rfl, rfl⟩

/-- Witness for the amended C2. -/
theorem c2_second_send_silently_dropped_witness :
    (sendMessageModel jpNoneW stBusySame (FetchResult.ok ncDummyW)
          (FetchResult.ok tfDummyW) 5).1 = stBusySame ∧
      (sendMessageModel jpNoneW stBusySame (FetchResult.ok ncDummyW)
          (FetchResult.ok tfDummyW) 5).1.errors = stBusySame.errors :=
  c2_second_send_silently_dropped jpNoneW stBusySame (FetchResult.ok ncDummyW)
    (FetchResult.ok tfDummyW) 5 rfl

/-! Fixtures for the end-of-stream claims: a turn on session `a`
(currently second in the sidebar), with a parse function recognizing a
token payload and a final-metadata payload. -/

def jpTurnW : List Char → Option ParsedData := fun d =>
  if d = ("tok").data then some (ParsedData.token (("Hello").data))
  else if d = ("meta").data then some (ParsedData.meta 1)
  else none

/-- A stream that terminates cleanly: token, final metadata, `[DONE]`. -/
def doneChunksW : List (List Char) :=
  [("data: tok\n\ndata: meta\n\ndata: [DONE]\n\n").data]

/-- A stream whose channel closes after one token, with no `[DONE]`
marker and no final metadata. -/
def dropChunksW : List (List Char) := [("data: tok\n\n").data]

/-- Idle state about to send on session `a`. -/
def stReadyW : UIState :=
  { baseUI with
      currentChatId := some (("a").data)
      inputValue := ("hi").data }

/-- Final client state of a send on session `a` whose stream ends with
the clean `[DONE]` marker. -/
def c5Run : UIState :=
  (sendMessageModel jpTurnW stReadyW (FetchResult.ok ncDummyW)
      (FetchResult.ok { okStatus := true, chunks := doneChunksW }) 99).1

/-- C5: evaluating the code at a turn whose stream terminates with the
clean `[DONE]` end-of-stream marker (after a token and the final
metadata): the `return` at the marker exits `sendMessage` before the
sidebar block at script.js lines 310-317, so session `a` is NOT moved
to the front of the local list and no `updated_at` is stamped — the
list stays `[chatB, chatA]` — even though the stream closed cleanly
(`closed`) and the turn finalized (`finalized`).  This contradicts the
claim and the intent of the (otherwise unreachable) move-to-front
code. -/
theorem c5_done_skips_registry_update :
    c5Run.chats = [chatB, chatA] ∧
      c5Run.turnStream.map StreamState.closed = some true ∧
      c5Run.turnStream.map StreamState.finalized = some true := by
  decide

/-- Final client state of a send on session `a` whose channel closes
without the `[DONE]` marker (connection dropped after one token). -/
def c6Run : UIState :=
  (sendMessageModel jpTurnW stReadyW (FetchResult.ok ncDummyW)
      (FetchResult.ok { okStatus := true, chunks := dropChunksW }) 77).1

/-- C6 counterexample: when the channel closes without the `[DONE]`
marker, the code performs the turn-completion bookkeeping — session
`a` is moved to the front of the list with a freshly stamped
`updated_at` — surfaces no error (`errors` stays empty) and triggers
no retry, even though the stream never closed (`closed = false`) and
the message was never finalized; the claim's requirement that such a
closure be treated as a failed turn needing a fresh retry, never as a
completed one, is therefore false of the code. -/
theorem c6_drop_treated_as_completion_cex :
    c6Run.chats = [{ chatA with updated_at := 77 }, chatB] ∧
      c6Run.errors = [] ∧
      c6Run.turnStream.map StreamState.closed = some false ∧
      c6Run.turnStream.map StreamState.finalized = some false := by
  decide

/-- C6 (amended): the client distinguishes the `[DONE]` marker from
protocol-level channel closure only in control flow, with roughly
inverted bookkeeping: a stream ending with the marker returns early
and skips the sidebar move-to-front, while a channel closing without
the marker ends the read loop normally and performs the move-to-front;
neither path surfaces an error or retries, so closure without the
marker is handled as a normal end of stream, not as a failed turn. -/
theorem c6_done_vs_closure_paths (jp : List Char → Option ParsedData)
    (st : UIState) (cid message : List Char) (tf : TurnFetch) (now : Nat)
    (hok : tf.okStatus = true) :
    ((runStream jp tf.chunks).closed = true →
        (runTurnModel jp st cid message (FetchResult.ok tf) now).chats = st.chats) ∧
      ((runStream jp tf.chunks).closed = false →
        (runTurnModel jp st cid message (FetchResult.ok tf) now).chats =
          moveToFront st.chats cid now) ∧
      (runTurnModel jp st cid message (FetchResult.ok tf) now).errors = st.errors := by
  refine ⟨?_, ?_, ?_⟩
  · intro h
    simp [runTurnModel, hok, h]
  · intro h
    simp [runTurnModel, hok, h]
  · simp only [runTurnModel, hok]
    split
    · rename_i hf
      exact absurd hf (by decide)
    · split <;> rfl

/-- Witness for the amended C6: a dropped channel performs the
move-to-front. -/
theorem c6_done_vs_closure_paths_witness :
    (runTurnModel jpTurnW stReadyW (("a").data) (("hi").data)
        (FetchResult.ok { okStatus := true, chunks := dropChunksW }) 77).chats =
      moveToFront stReadyW.chats (("a").data) 77 :=
  (c6_done_vs_closure_paths jpTurnW stReadyW (("a").data) (("hi").data)
      { okStatus := true, chunks := dropChunksW } 77 rfl).2.1 (by decide)

/-- C7: on creation the registry inserts the new session at the front
of the local list; on deletion (confirmed, successful response) the
local list keeps exactly the entries of other sessions, unchanged and
in order (a sublist of the original), and the active view is cleared
to the empty/placeholder state — `currentChatId` nulled, messages
wiped, empty state shown — if and only if the deleted session was the
active one. -/
theorem c7_create_front_delete_exact (st : UIState) (chatId : List Char)
    (data : NewChatData) (message : List Char) (now : Nat)
    (hok : data.error = none) :
    ((createNewChatWithMessage st message (FetchResult.ok data) now).chats =
        { id := data.chat_id, title := data.title, created_at := now,
          updated_at := now } :: st.chats) ∧
      (∀ c : Chat, c ∈ (deleteChatOp st chatId true DeleteResponse.okResp).chats ↔
        (c ∈ st.chats ∧ c.id ≠ chatId)) ∧
      ((deleteChatOp st chatId true DeleteResponse.okResp).chats).Sublist st.chats ∧
      (st.currentChatId = some chatId →
        (deleteChatOp st chatId true DeleteResponse.okResp).currentChatId = none ∧
          (deleteChatOp st chatId true DeleteResponse.okResp).messagesHtml = [] ∧
          (deleteChatOp st chatId true DeleteResponse.okResp).emptyShown = true) ∧
      (st.currentChatId ≠ some chatId →
        (deleteChatOp st chatId true DeleteResponse.okResp).currentChatId =
            st.currentChatId ∧
          (deleteChatOp st chatId true DeleteResponse.okResp).messagesHtml =
            st.messagesHtml ∧
          (deleteChatOp st chatId true DeleteResponse.okResp).emptyShown =
            st.emptyShown) := by
  obtain ⟨err, dcid, dtitle, dresp, dmem⟩ := data
  have hok' : err = none := hok
  subst hok'
  have hdel : deleteChatOp st chatId true DeleteResponse.okResp =
      (if st.currentChatId = some chatId then
        { st with
            chats := st.chats.filter (fun c => c.id != chatId)
            currentChatId := none
            chatTitle := defaultChatTitle
            messagesHtml := []
            emptyShown := true }
      else { st with chats := st.chats.filter (fun c => c.id != chatId) }) := rfl
  have hch : (deleteChatOp st chatId true DeleteResponse.okResp).chats =
      st.chats.filter (fun c => c.id != chatId) := by
    rw [hdel]
    split_ifs <;> rfl
  refine ⟨?_, ?_, ?_, ?_, ?_⟩
  · rfl
  · intro c
    rw [hch, List.mem_filter, bne_iff_ne]
  · rw [hch]
    exact List.filter_sublist st.chats
  · intro h
    rw [hdel, if_pos h]
    exact ⟨rfl, rfl, rfl⟩
  · intro h
    rw [hdel, if_neg h]
    exact ⟨rfl, rfl, rfl⟩

/-- Witness for C7: create a chat on top of `baseUI`, delete session
`a` while it is not active, and check session `b`'s membership and
the untouched view. -/
theorem c7_create_front_delete_exact_witness :
    ((createNewChatWithMessage baseUI (("hi").data) (FetchResult.ok ncDummyW) 3).chats =
        { id := ncDummyW.chat_id, title := ncDummyW.title, created_at := 3,
          updated_at := 3 } :: baseUI.chats) ∧
      (chatB ∈ (deleteChatOp baseUI (("a").data) true DeleteResponse.okResp).chats ↔
        (chatB ∈ baseUI.chats ∧ chatB.id ≠ ("a").data)) ∧
      ((deleteChatOp baseUI (("a").data) true DeleteResponse.okResp).currentChatId =
          baseUI.currentChatId ∧
        (deleteChatOp baseUI (("a").data) true DeleteResponse.okResp).messagesHtml =
          baseUI.messagesHtml ∧
        (deleteChatOp baseUI (("a").data) true DeleteResponse.okResp).emptyShown =
          baseUI.emptyShown) :=
  ⟨(c7_create_front_delete_exact baseUI (("a").data) ncDummyW (("hi").data) 3 rfl).1,
    (c7_create_front_delete_exact baseUI (("a").data) ncDummyW (("hi").data) 3 rfl).2.1 chatB,
    (c7_create_front_delete_exact baseUI (("a").data) ncDummyW (("hi").data) 3 rfl).2.2.2.2
      (by decide)⟩

/-- C8: whenever a send/turn operation actually starts (the guard is
passed: non-empty trimmed input and no generation in flight), the
final state has `isGenerating = false` and the send button re-enabled
on every exit path — success, server-reported error (`data.error` or a
non-ok HTTP status), or a thrown exception — because both the new-chat
path and the streaming path reset them in `finally`. -/
theorem c8_lock_released_all_paths (jp : List Char → Option ParsedData)
    (st : UIState) (newResp : FetchResult NewChatData)
    (turnResp : FetchResult TurnFetch) (now : Nat)
    (hmsg : jsTrim st.inputValue ≠ []) (hgen : st.isGenerating = false) :
    (sendMessageModel jp st newResp turnResp now).1.isGenerating = false ∧
      (sendMessageModel jp st newResp turnResp now).1.sendDisabled = false := by
  unfold sendMessageModel
  rw [if_neg (by simp [hmsg, hgen])]
  cases st.currentChatId with
  | none => exact ⟨rfl, rfl⟩
  | some cid => exact ⟨rfl, rfl⟩

/-- Witness for C8 on a thrown `/chat-stream` fetch. -/
theorem c8_lock_released_all_paths_witness :
    (sendMessageModel jpTurnW stReadyW (FetchResult.ok ncDummyW)
          (FetchResult.thrown (("boom").data)) 1).1.isGenerating = false ∧
      (sendMessageModel jpTurnW stReadyW (FetchResult.ok ncDummyW)
          (FetchResult.thrown (("boom").data)) 1).1.sendDisabled = false :=
  c8_lock_released_all_paths jpTurnW stReadyW (FetchResult.ok ncDummyW)
    (FetchResult.thrown (("boom").data)) 1 (by decide) rfl

end ChatLlama
